import Mathlib

/-!
Verification of the qps-bench object-storage microbenchmark
(`src/qps-bench/src/main.rs`) against its design specification.

The development shallowly embeds the benchmark engine: the per-attempt
outcome recording shared by the five `run_*_benchmark` functions, the
key-naming scheme (`generate_key`), dataset population (`create_dataset`),
the counting-semaphore admission discipline, the mode dispatch of `main`,
result assembly (QPS and histogram statistics), and the composite
`read_write` flow.  Backend calls are abstracted as outcome oracles
(`Option Nat`: `some lat` is a success with measured latency in
microseconds, `none` a failure), and randomness (UUID suffixes) is passed
in explicitly.  The latency histogram of the `hdrhistogram` dependency is
modelled as the list of recorded samples with `value_at_quantile`
reproduced at exact precision (its 3-significant-figure bucket rounding is
a monotone quantization and is omitted); machine integers are modelled as
`Nat` (counter values stay far below 2^64 in any run), and Rust's `%`
operator, which panics on a zero divisor, is modelled by `rustRem`
returning `Option Nat`.
-/

namespace QpsBench

/-- Output of one benchmark run as returned by each of the five
`run_*_benchmark` functions: the success counter `ok_count`, the failure
counter `err_count`, and the latency histogram, modelled as the list of
recorded samples in record order. -/
structure DriverOutput where
  ok : Nat
  err : Nat
  samples : List Nat
  deriving DecidableEq, Repr

/-- Effect of one completed attempt on the shared counters and histogram,
mirroring the `match ... { Ok(_) => ..., Err(_) => ... }` body of the
spawned task in every `run_*_benchmark` function: a success records one
latency sample and increments `ok_count`; a failure only increments
`err_count`. -/
def recordAttempt (d : DriverOutput) (o : Option Nat) : DriverOutput :=
  match o with
  | some lat => { d with ok := d.ok + 1, samples := d.samples ++ [lat] }
  | none => { d with err := d.err + 1 }

/-- A whole run of the driver over the list of completed attempt outcomes.
Counters start at zero and the histogram empty, as in each
`run_*_benchmark` function; because counter updates are atomic increments
and histogram recording is mutex-guarded, the final totals are independent
of the interleaving, so a run is determined by its multiset of outcomes
(taken here in completion order). -/
def runBench (outcomes : List (Option Nat)) : DriverOutput :=
  outcomes.foldl recordAttempt ⟨0, 0, []⟩

/-- One lowercase hex digit, as produced by Rust's `{:02x}` formatting. -/
def hexDigitChar (n : Nat) : Char :=
  if n < 10 then Char.ofNat (48 + n) else Char.ofNat (87 + n)

/-- Two-hex-digit rendering of a byte value, Rust's `format!("{:02x}", n)`
for `n < 256`. -/
def hexByte (n : Nat) : String :=
  String.mk [hexDigitChar (n / 16), hexDigitChar (n % 16)]

/-- The key naming scheme of `generate_key` in `main.rs`: the random UUID
suffix drawn inside the Rust function is passed as the explicit `uuid`
argument here. -/
def generate_key (pfx : String) (index : Nat) (uuid : String) : String :=
  pfx ++ "/" ++ hexByte (index % 256) ++ "/" ++ uuid

/-- The keys for which dataset population issues a write attempt: one per
loop iteration `i in 0..count` of `create_dataset`. -/
def datasetAttemptKeys (count : Nat) (key : Nat → String) : List String :=
  (List.range count).map key

/-- Dataset population, from `create_dataset` in `main.rs`: the backend's
response to the `i`-th write is abstracted as `writeOk i`; a successful
write pushes its key, a failed one is logged and skipped. -/
def create_dataset (count : Nat) (writeOk : Nat → Bool) (key : Nat → String) : List String :=
  (List.range count).filterMap (fun i => if writeOk i then some (key i) else none)

/-- A mock backend that fails on every 10th write (writes number 10, 20,
... in 1-based counting, i.e. 0-based indices 9, 19, ...). -/
def failEveryTenth (i : Nat) : Bool := (i + 1) % 10 == 0

/-- Rust's `%` on `usize`: panics (here `none`) when the divisor is 0. -/
def rustRem (a b : Nat) : Option Nat :=
  if b = 0 then none else some (a % b)

/-- Key selection of the stat/read/delete benchmarks:
`keys[next_key_index.fetch_add(1) % keys.len()]`.  `cursor` is the value
the atomic fetch-add returned for this attempt; `none` models the panic
when `keys` is empty. -/
def selectKey (keys : List String) (cursor : Nat) : Option String :=
  (rustRem cursor keys.length).bind (fun i => keys.get? i)

/-- Events observable on the counting semaphore: a launch acquiring a
permit and an attempt completing and dropping its permit. -/
inductive SemEvent where
  | acquire
  | release
  deriving DecidableEq, Repr

/-- State of the `tokio::sync::Semaphore` of the run together with the
attempts currently holding a permit.  An attempt is outstanding exactly
while it holds the permit moved into its task (`let _permit = permit;`,
dropped when the task body ends). -/
structure SemState where
  available : Nat
  outstanding : Nat
  deriving DecidableEq, Repr

/-- Semantics of one semaphore event: `acquire_owned` only returns while a
permit is available (a saturated semaphore blocks the launch loop, so no
`acquire` event happens then — modelled as `none`, an impossible event);
dropping a permit returns it. -/
def semStep (s : SemState) (e : SemEvent) : Option SemState :=
  match e with
  | .acquire => if s.available = 0 then none else some ⟨s.available - 1, s.outstanding + 1⟩
  | .release => if s.outstanding = 0 then none else some ⟨s.available + 1, s.outstanding - 1⟩

/-- A run of the semaphore from `Semaphore::new(concurrency)` (all `c`
permits free, nothing outstanding) over an arbitrary interleaving of
launch and completion events. -/
def semRun (c : Nat) (events : List SemEvent) : Option SemState :=
  events.foldl (fun acc e => acc.bind (fun s => semStep s e)) (some ⟨c, 0⟩)

/-- A logical backend operation issued over the network. -/
inductive BackendOp where
  | write (key : String)
  | read (key : String)
  | stat (key : String)
  | del (key : String)
  | listing (pfx : String)
  deriving DecidableEq, Repr

/-- Modes for which `main` pre-creates a dataset (the `matches!` guard). -/
def datasetModes : List String := ["stat", "read_small", "delete", "list"]

/-- Modes handled by the final `match` in `main` (anything else hits the
`anyhow::bail!` arm). -/
def singleModes : List String := ["stat", "read_small", "write_small", "delete", "list"]

/-- All mode names the program recognizes. -/
def recognizedModes : List String :=
  ["stat", "read_small", "write_small", "delete", "list", "read_write"]

/-- Control flow of `main` after operator construction, at the granularity
of which backend operations are issued and whether the process exits
successfully.  The backend traffic of the composite branch, of dataset
population, of the selected benchmark, and of cleanup are abstracted as
the four trace parameters; `main` first checks for `read_write`, then
pre-populates only for `datasetModes`, then dispatches on the mode name,
bailing out (non-zero exit, `false`) on anything unrecognized. -/
def mainModel (mode : String) (compositeOps datasetOps benchOps cleanupOps : List BackendOp) :
    List BackendOp × Bool :=
  if mode = "read_write" then (compositeOps, true)
  else
    let pre := if mode ∈ datasetModes then datasetOps else []
    if mode ∈ singleModes then (pre ++ benchOps ++ cleanupOps, true)
    else (pre, false)

/-- Rank of the sample returned for quantile `q` out of `n` recorded
samples, from `hdrhistogram`'s `value_at_quantile`:
`max(ceil(q * count), 1)`. -/
def quantileTarget (q : ℚ) (n : Nat) : Nat :=
  max (⌈q * (n : ℚ)⌉.toNat) 1

/-- The `value_at_quantile` of the `hdrhistogram` dependency, modelled at
exact precision over the recorded samples: the sample of ascending rank
`quantileTarget q n` (clamped into range), and 0 when the histogram is
empty — the function is total and has no error path. -/
def valueAtQuantile (samples : List Nat) (q : ℚ) : Nat :=
  let s := List.insertionSort (· ≤ ·) samples
  s.getD (min (quantileTarget q samples.length - 1) (s.length - 1)) 0

/-- The `mean` of the `hdrhistogram` dependency: 0 on an empty histogram,
else the arithmetic mean of the recorded samples. -/
def histMean (samples : List Nat) : ℚ :=
  if samples.length = 0 then 0 else (samples.sum : ℚ) / (samples.length : ℚ)

/-- Backend identity echoed into every result record. -/
structure BackendInfo where
  service : String
  endpoint : String
  region : String
  bucket : String
  deriving DecidableEq, Repr

/-- The `BenchmarkResult` record of `main.rs`; `qps` is kept as an exact
rational (the Rust code divides two exactly-representable integers as
`f64`). -/
structure BenchmarkResult where
  mode : String
  concurrency : Nat
  duration_seconds : Nat
  ok_ops : Nat
  err_ops : Nat
  qps : ℚ
  latency_us_p50 : Nat
  latency_us_p95 : Nat
  latency_us_p99 : Nat
  latency_us_mean : Nat
  backend : BackendInfo
  deriving DecidableEq, Repr

/-- Result assembly in `main`: `qps = ok_ops / duration_seconds` (the
configured duration — `main` holds no measured elapsed time), quantiles
read from the histogram at 0.5 / 0.95 / 0.99, and the mean truncated to an
integer (`as u64`). -/
def buildResult (mode : String) (concurrency durationSeconds : Nat) (d : DriverOutput)
    (b : BackendInfo) : BenchmarkResult :=
  { mode := mode
    concurrency := concurrency
    duration_seconds := durationSeconds
    ok_ops := d.ok
    err_ops := d.err
    qps := (d.ok : ℚ) / (durationSeconds : ℚ)
    latency_us_p50 := valueAtQuantile d.samples (1 / 2)
    latency_us_p95 := valueAtQuantile d.samples (19 / 20)
    latency_us_p99 := valueAtQuantile d.samples (99 / 100)
    latency_us_mean := (histMean d.samples).floor.toNat
    backend := b }

/-- One backend call of the composite `read_write` run, tagged by phase:
a read of a selected key, the panic of a read attempt on an empty key set,
or a write of a synthesized key. -/
inductive RwEvent where
  | readOp (key : String)
  | readPanic
  | writeOp (key : String)
  deriving DecidableEq, Repr

/-- Inputs of a `read_write` run: configuration, the randomness and
backend responses of dataset population, and the attempt counts, UUID
streams and outcome oracles of the two phases. -/
structure RwParams where
  objects : Nat
  concurrency : Nat
  durationSeconds : Nat
  pfx : String
  datasetUuid : Nat → String
  datasetWriteOk : Nat → Bool
  readAttempts : Nat
  readOutcome : Nat → Option Nat
  writeAttempts : Nat
  writeUuid : Nat → String
  writeOutcome : Nat → Option Nat
  backend : BackendInfo

/-- The key set pre-populated by the `read_write` branch of `main` before
its read phase. -/
def rwDatasetKeys (p : RwParams) : List String :=
  create_dataset p.objects p.datasetWriteOk (fun i => generate_key p.pfx i (p.datasetUuid i))

/-- The backend call of read-phase attempt `j`: `run_read_benchmark` reads
`keys[j % keys.len()]` (its cursor starts at 0). -/
def rwReadEvent (keys : List String) (j : Nat) : RwEvent :=
  match selectKey keys j with
  | none => .readPanic
  | some k => .readOp k

/-- The two results and the interleaving-free backend trace of the
`read_write` branch of `main`: dataset population, then the full read
phase over the pre-populated key set (`read_state`, cursor from 0), then
the full write phase over an empty key set with its own `key_counter`
starting at 0, each phase reported via `buildResult` under its sub-mode
name. -/
def runReadWriteModel (p : RwParams) : BenchmarkResult × BenchmarkResult × List RwEvent :=
  let keys := rwDatasetKeys p
  let readOut := runBench ((List.range p.readAttempts).map p.readOutcome)
  let writeOut := runBench ((List.range p.writeAttempts).map p.writeOutcome)
  (buildResult "read_small" p.concurrency p.durationSeconds readOut p.backend,
   buildResult "write_small" p.concurrency p.durationSeconds writeOut p.backend,
   ((List.range p.readAttempts).map (fun j => rwReadEvent keys j))
     ++ ((List.range p.writeAttempts).map
          (fun j => RwEvent.writeOp (generate_key p.pfx j (p.writeUuid j)))))

/-- Concrete `read_write` run inputs: one dataset object, two attempts per
phase, all backend calls succeeding. -/
def rwWitnessParams : RwParams :=
  { objects := 1
    concurrency := 1
    durationSeconds := 1
    pfx := "bench"
    datasetUuid := fun _ => "u0"
    datasetWriteOk := fun _ => true
    readAttempts := 2
    readOutcome := fun _ => some 5
    writeAttempts := 2
    writeUuid := fun j => "w" ++ toString j
    writeOutcome := fun _ => some 6
    backend := ⟨"s3", "endpoint", "region", "bucket"⟩ }

lemma foldl_recordAttempt (outs : List (Option Nat)) : ∀ d : DriverOutput,
    ((outs.foldl recordAttempt d).ok = d.ok + outs.countP (fun o => o.isSome))
    ∧ ((outs.foldl recordAttempt d).err = d.err + outs.countP (fun o => o.isNone))
    ∧ ((outs.foldl recordAttempt d).samples.length
        = d.samples.length + outs.countP (fun o => o.isSome)) := by
  induction outs with
  | nil => intro d; simp
  | cons o rest ih =>
    intro d
    obtain ⟨h1, h2, h3⟩ := ih (recordAttempt d o)
    rcases o with _ | lat <;>
      simp only [recordAttempt, List.foldl_cons, List.countP_cons] at h1 h2 h3 ⊢ <;>
      refine ⟨?_, ?_, ?_⟩ <;> simp_all <;> omega

lemma countP_isSome_add_isNone (outs : List (Option Nat)) :
    outs.countP (fun o => o.isSome) + outs.countP (fun o => o.isNone) = outs.length := by
  induction outs with
  | nil => simp
  | cons o rest ih => rcases o with _ | lat <;> simp [List.countP_cons] <;> omega

/-- C1: for every run of a single-operation benchmark, once the driver is
done the histogram's total sample count equals the success counter, the
two counters sum to the number of completed attempts, and per attempt a
success increments exactly the success counter while recording exactly one
sample whereas a failure increments exactly the failure counter and
records none. -/
theorem c1_attempt_accounting (outcomes : List (Option Nat)) :
    ((runBench outcomes).ok + (runBench outcomes).err = outcomes.length)
    ∧ ((runBench outcomes).samples.length = (runBench outcomes).ok)
    ∧ (∀ (d : DriverOutput) (lat : Nat),
        (recordAttempt d (some lat)).ok = d.ok + 1
        ∧ (recordAttempt d (some lat)).err = d.err
        ∧ (recordAttempt d (some lat)).samples = d.samples ++ [lat])
    ∧ (∀ d : DriverOutput,
        (recordAttempt d none).ok = d.ok
        ∧ (recordAttempt d none).err = d.err + 1
        ∧ (recordAttempt d none).samples = d.samples) := by
  obtain ⟨h1, h2, h3⟩ := foldl_recordAttempt outcomes ⟨0, 0, []⟩
  have hc := countP_isSome_add_isNone outcomes
  refine ⟨?_, ?_, ?_, ?_⟩
  · simp only [runBench, h1, h2]; omega
  · simp only [runBench, h1, h3]; simp
  · intro d lat; exact ⟨rfl, rfl, rfl⟩
  · intro d; exact ⟨rfl, rfl, rfl⟩

lemma filterMap_guard (p : Nat → Bool) (f : Nat → String) (l : List Nat) :
    l.filterMap (fun i => if p i then some (f i) else none) = (l.filter p).map f := by
  induction l with
  | nil => rfl
  | cons a l ih =>
    by_cases h : p a <;> simp [List.filterMap_cons, List.filter_cons, h, ih]

/-- C5: dataset population issues exactly `count` sequential write
attempts; a failed write is skipped without aborting, so the returned key
set is exactly one key per successful write in issue order, and with a
backend failing every 10th of 100 requested writes the key set has length
90. -/
theorem c5_population_skips_failed_writes (count : Nat) (writeOk : Nat → Bool)
    (key : Nat → String) :
    (datasetAttemptKeys count key).length = count
    ∧ create_dataset count writeOk key = ((List.range count).filter writeOk).map key
    ∧ (create_dataset 100 (fun i => ! failEveryTenth i) key).length = 90 := by
  refine ⟨by simp [datasetAttemptKeys], filterMap_guard _ _ _, ?_⟩
  rw [create_dataset, filterMap_guard, List.length_map]
  decide

lemma selectKey_mem (keys : List String) (cursor : Nat) (h : keys ≠ []) :
    ∃ k ∈ keys, selectKey keys cursor = some k := by
  have hlen : keys.length ≠ 0 := fun hh => h (List.length_eq_zero.mp hh)
  have hlt : cursor % keys.length < keys.length := Nat.mod_lt _ (Nat.pos_of_ne_zero hlen)
  refine ⟨keys.get ⟨cursor % keys.length, hlt⟩, List.get_mem _ _ _, ?_⟩
  simp [selectKey, rustRem, hlen, List.get?_eq_get hlt]

/-- C10: the stat/read/delete benchmarks index the key set by
`cursor % keys.len()`; with an empty key set the remainder-by-zero panics
(modelled as `none`, so neither counter is reached), while with any
non-empty key set every attempt selects an actual member of the set. -/
theorem c10_empty_key_set_panics (keys : List String) (cursor : Nat) :
    (keys = [] → selectKey keys cursor = none)
    ∧ (keys ≠ [] → ∃ k ∈ keys, selectKey keys cursor = some k) := by
  constructor
  · rintro rfl; rfl
  · intro h; exact selectKey_mem keys cursor h

theorem c10_empty_key_set_panics_witness :
    selectKey [] 7 = none ∧ ∃ k ∈ ["a"], selectKey ["a"] 7 = some k :=
  ⟨(c10_empty_key_set_panics [] 7).1 rfl,
   (c10_empty_key_set_panics ["a"] 7).2 (by simp)⟩

lemma key_suffix_inj (p h1 h2 u1 u2 : String) (hl : h1.data.length = h2.data.length)
    (he : p ++ "/" ++ h1 ++ "/" ++ u1 = p ++ "/" ++ h2 ++ "/" ++ u2) : u1 = u2 := by
  have hd := congrArg String.data he
  have hslash : ("/" : String).data = ['/'] := rfl
  simp only [String.data_append, hslash, List.append_assoc, List.singleton_append] at hd
  have hmid : h1.data ++ '/' :: u1.data = h2.data ++ '/' :: u2.data := by
    have := List.append_cancel_left hd
    simpa using this
  obtain ⟨-, htl⟩ := List.append_inj hmid hl
  exact String.ext (by simpa using htl)

/-- C4: `generate_key` builds `pfx/<shard>/<suffix>` where the shard
segment is the two-hex-digit rendering of `ordinal mod 256` and the suffix
is the freshly drawn 128-bit identifier; for a fixed prefix, keys with
distinct suffixes are distinct, and the function is total (no error
conditions). -/
theorem c4_generate_key_shape_and_distinct (pfx u1 u2 : String) (i1 i2 : Nat) (hu : u1 ≠ u2) :
    generate_key pfx i1 u1 = pfx ++ "/" ++ hexByte (i1 % 256) ++ "/" ++ u1
    ∧ (hexByte (i1 % 256)).length = 2
    ∧ i1 % 256 < 256
    ∧ generate_key pfx i1 u1 ≠ generate_key pfx i2 u2 := by
  refine ⟨rfl, rfl, Nat.mod_lt _ (by norm_num), ?_⟩
  intro he
  exact hu (key_suffix_inj pfx (hexByte (i1 % 256)) (hexByte (i2 % 256)) u1 u2 rfl he)

theorem c4_generate_key_witness :
    generate_key "bench" 3 "u1" ≠ generate_key "bench" 259 "u2" :=
  (c4_generate_key_shape_and_distinct "bench" "u1" "u2" 3 259 (by decide)).2.2.2

lemma semStep_preserves (c : Nat) (s s' : SemState) (e : SemEvent)
    (hinv : s.available + s.outstanding = c) (h : semStep s e = some s') :
    s'.available + s'.outstanding = c := by
  cases e <;> simp only [semStep] at h <;> split at h <;>
    simp only [Option.some.injEq, reduceCtorEq] at h <;> cases s' <;>
    simp_all <;> omega

lemma semFold_none (events : List SemEvent) :
    events.foldl (fun acc e => acc.bind (fun t => semStep t e)) none = none := by
  induction events with
  | nil => rfl
  | cons e rest ih => simpa using ih

lemma semFold_inv (c : Nat) (events : List SemEvent) : ∀ s0 : SemState,
    s0.available + s0.outstanding = c →
    ∀ s : SemState,
      events.foldl (fun acc e => acc.bind (fun t => semStep t e)) (some s0) = some s →
      s.available + s.outstanding = c := by
  induction events with
  | nil =>
    intro s0 h0 s hs
    simp only [List.foldl_nil, Option.some.injEq] at hs
    exact hs ▸ h0
  | cons e rest ih =>
    intro s0 h0 s hs
    simp only [List.foldl_cons, Option.some_bind] at hs
    rcases he : semStep s0 e with _ | s1
    · rw [he] at hs
      rw [semFold_none] at hs
      exact absurd hs (by simp)
    · rw [he] at hs
      exact ih s1 (semStep_preserves c s0 s1 e h0 he) s hs

/-- C2: every interleaving of permit acquisitions (attempt launches) and
permit drops (attempt completions) of a counting semaphore of size
`concurrency` keeps the number of simultaneously outstanding attempts at
or below `concurrency` at every instant, since after any event prefix the
reached state has at most `concurrency` permits out. -/
theorem c2_concurrency_cap (c : Nat) (events : List SemEvent) (s : SemState)
    (h : semRun c events = some s) : s.outstanding ≤ c := by
  have hinv := semFold_inv c events ⟨c, 0⟩ (by simp) s h
  omega

theorem c2_concurrency_cap_witness : (SemState.mk 1 1).outstanding ≤ 2 :=
  c2_concurrency_cap 2 [SemEvent.acquire, SemEvent.acquire, SemEvent.release] ⟨1, 1⟩ (by decide)

/-- C6: a mode name outside the recognized set reaches the `bail!` arm of
the dispatch with no dataset pre-population (the `matches!` guard covers
only recognized modes) and no benchmark or cleanup phase: the process
exits non-zero having issued zero backend operations. -/
theorem c6_unknown_mode_rejected (mode : String)
    (compositeOps datasetOps benchOps cleanupOps : List BackendOp)
    (h : mode ∉ recognizedModes) :
    mainModel mode compositeOps datasetOps benchOps cleanupOps = ([], false) := by
  have h1 : mode ≠ "read_write" := by
    intro hh; exact h (by simp [recognizedModes, hh])
  have h2 : mode ∉ singleModes := by
    intro hh; apply h
    simp only [singleModes, List.mem_cons, List.mem_singleton, List.not_mem_nil] at hh
    simp only [recognizedModes, List.mem_cons, List.mem_singleton]
    tauto
  have h3 : mode ∉ datasetModes := by
    intro hh; apply h
    simp only [datasetModes, List.mem_cons, List.mem_singleton, List.not_mem_nil] at hh
    simp only [recognizedModes, List.mem_cons, List.mem_singleton]
    tauto
  simp [mainModel, h1, h2, h3]

theorem c6_unknown_mode_rejected_witness : mainModel "bogus" [] [] [] [] = ([], false) :=
  c6_unknown_mode_rejected "bogus" [] [] [] [] (by decide)

lemma valueAtQuantile_nil (q : ℚ) : valueAtQuantile [] q = 0 := by
  simp [valueAtQuantile]

lemma valueAtQuantile_mono (samples : List Nat) {q1 q2 : ℚ} (h : q1 ≤ q2) :
    valueAtQuantile samples q1 ≤ valueAtQuantile samples q2 := by
  show (List.insertionSort (· ≤ ·) samples).getD
      (min (quantileTarget q1 samples.length - 1)
        ((List.insertionSort (· ≤ ·) samples).length - 1)) 0
    ≤ (List.insertionSort (· ≤ ·) samples).getD
      (min (quantileTarget q2 samples.length - 1)
        ((List.insertionSort (· ≤ ·) samples).length - 1)) 0
  set s := List.insertionSort (· ≤ ·) samples with hs
  rcases Nat.eq_zero_or_pos s.length with h0 | hpos
  · rw [List.length_eq_zero.mp h0]
    simp [List.getD]
  · have hsorted : s.Sorted (· ≤ ·) := List.sorted_insertionSort _ samples
    have ht : quantileTarget q1 samples.length ≤ quantileTarget q2 samples.length := by
      unfold quantileTarget
      exact max_le_max (Int.toNat_le_toNat (Int.ceil_le_ceil
        (mul_le_mul_of_nonneg_right h (by positivity)))) le_rfl
    set i := min (quantileTarget q1 samples.length - 1) (s.length - 1) with hi
    set j := min (quantileTarget q2 samples.length - 1) (s.length - 1) with hj
    have hij : i ≤ j := min_le_min (Nat.sub_le_sub_right ht 1) le_rfl
    have hjlt : j < s.length := lt_of_le_of_lt (min_le_right _ _) (Nat.sub_lt hpos one_pos)
    have hilt : i < s.length := lt_of_le_of_lt hij hjlt
    rw [List.getD_eq_getElem?_getD, List.getD_eq_getElem?_getD,
        List.getElem?_eq_getElem hilt, List.getElem?_eq_getElem hjlt]
    simp only [Option.getD_some]
    have hrel := hsorted.rel_get_of_le (a := ⟨i, hilt⟩) (b := ⟨j, hjlt⟩) (Fin.mk_le_mk.mpr hij)
    simpa [List.get_eq_getElem] using hrel

/-- C9: for every histogram a run can produce, the reported quantiles are
monotone in the quantile argument: the p50 field of the assembled result
is at most the p95 field, which is at most the p99 field. -/
theorem c9_reported_quantiles_monotone (mode : String) (c dur : Nat) (d : DriverOutput)
    (b : BackendInfo) :
    (buildResult mode c dur d b).latency_us_p50 ≤ (buildResult mode c dur d b).latency_us_p95
    ∧ (buildResult mode c dur d b).latency_us_p95
        ≤ (buildResult mode c dur d b).latency_us_p99 := by
  constructor <;> exact valueAtQuantile_mono _ (by norm_num)

/-- C7: the reported QPS is the success count divided by the configured
run duration in seconds; it depends on the driver output only through the
success counter (in particular not on any measured latency), so two
driver outputs with the same success count yield the same QPS. -/
theorem c7_qps_is_ok_over_configured_duration (mode : String) (c dur : Nat)
    (d d2 : DriverOutput) (b : BackendInfo) (h : d.ok = d2.ok) :
    (buildResult mode c dur d b).qps = (d.ok : ℚ) / (dur : ℚ)
    ∧ (buildResult mode c dur d b).qps = (buildResult mode c dur d2 b).qps :=
  ⟨rfl, by simp [buildResult, h]⟩

theorem c7_qps_witness :
    (buildResult "stat" 4 2 ⟨3, 1, [10, 20, 30]⟩ ⟨"s3", "e", "r", "b"⟩).qps
      = ((3 : Nat) : ℚ) / ((2 : Nat) : ℚ) :=
  (c7_qps_is_ok_over_configured_duration "stat" 4 2 ⟨3, 1, [10, 20, 30]⟩ ⟨3, 0, []⟩
    ⟨"s3", "e", "r", "b"⟩ rfl).1

/-- C3 counterexample: on the concrete all-failures run of three attempts
the histogram is indeed empty, but the quantile query on the empty
histogram returns 0 — `value_at_quantile` is a total function with no
error path, so it does not fail with a "no data" condition as the claim
states. -/
theorem c3_counterexample :
    (runBench [none, none, none]).ok = 0
    ∧ (runBench [none, none, none]).samples = []
    ∧ valueAtQuantile (runBench [none, none, none]).samples (1 / 2) = 0 :=
  ⟨rfl, rfl, valueAtQuantile_nil _⟩

/-- C3 as amended: for a run in which every backend operation fails the
success counter is 0 and the histogram contains zero recorded samples, and
a quantile query on that empty histogram returns 0 (the quantile API is
total; there is no error or "no data" condition). -/
theorem c3_all_failures_quantile_zero (outcomes : List (Option Nat)) (q : ℚ)
    (h : ∀ o ∈ outcomes, o = none) :
    (runBench outcomes).ok = 0
    ∧ (runBench outcomes).samples = []
    ∧ valueAtQuantile (runBench outcomes).samples q = 0 := by
  obtain ⟨h1, h2, h3⟩ := foldl_recordAttempt outcomes ⟨0, 0, []⟩
  have hok : outcomes.countP (fun o => o.isSome) = 0 := by
    rw [List.countP_eq_zero]
    intro o ho
    simp [h o ho]
  have hsok : (runBench outcomes).ok = 0 := by
    simp only [runBench] at h1 ⊢
    simp [h1, hok]
  have hslen : (runBench outcomes).samples.length = 0 := by
    simp only [runBench] at h3 ⊢
    simp [h3, hok]
  have hsamples : (runBench outcomes).samples = [] := List.length_eq_zero.mp hslen
  exact ⟨hsok, hsamples, by rw [hsamples]; exact valueAtQuantile_nil q⟩

theorem c3_all_failures_quantile_zero_witness :
    (runBench [none]).ok = 0
    ∧ (runBench [none]).samples = []
    ∧ valueAtQuantile (runBench [none]).samples (1 / 2) = 0 :=
  c3_all_failures_quantile_zero [none] (1 / 2) (by simp)

/-- C8: the composite `read_write` mode first pre-populates the key set,
then runs the full read phase, then the full write phase, its backend
trace being the read-phase calls followed by the write-phase calls with no
interleaving; every read-phase attempt targets a member of the
pre-populated key set, the write phase synthesizes key `j` from its own
counter starting at zero, and the two reported results carry the
`read_small` and `write_small` sub-mode names. -/
theorem c8_read_write_sequential (p : RwParams) (hne : rwDatasetKeys p ≠ []) :
    (runReadWriteModel p).2.2
      = ((List.range p.readAttempts).map (fun j => rwReadEvent (rwDatasetKeys p) j))
        ++ ((List.range p.writeAttempts).map
              (fun j => RwEvent.writeOp (generate_key p.pfx j (p.writeUuid j))))
    ∧ (∀ j, j < p.readAttempts →
        ∃ k ∈ rwDatasetKeys p, rwReadEvent (rwDatasetKeys p) j = RwEvent.readOp k)
    ∧ (runReadWriteModel p).1
        = buildResult "read_small" p.concurrency p.durationSeconds
            (runBench ((List.range p.readAttempts).map p.readOutcome)) p.backend
    ∧ (runReadWriteModel p).2.1
        = buildResult "write_small" p.concurrency p.durationSeconds
            (runBench ((List.range p.writeAttempts).map p.writeOutcome)) p.backend
    ∧ (runReadWriteModel p).1.mode = "read_small"
    ∧ (runReadWriteModel p).2.1.mode = "write_small" := by
  refine ⟨rfl, ?_, rfl, rfl, rfl, rfl⟩
  intro j hj
  obtain ⟨k, hk, hsel⟩ := selectKey_mem (rwDatasetKeys p) j hne
  exact ⟨k, hk, by simp [rwReadEvent, hsel]⟩

theorem c8_read_write_sequential_witness :
    (runReadWriteModel rwWitnessParams).1.mode = "read_small"
    ∧ (runReadWriteModel rwWitnessParams).2.1.mode = "write_small" :=
  ⟨(c8_read_write_sequential rwWitnessParams (by decide)).2.2.2.2.1,
   (c8_read_write_sequential rwWitnessParams (by decide)).2.2.2.2.2⟩

end QpsBench
